import Mathlib

/-!
A shallow embedding of the Traffic Persistence & Query Engine of the
mitmproxy capture/MCP server pair (`mitmproxy_addon.py`, `mcp_proxy_server.py`).

Modelling conventions:
* Python `str` values are sequences of code points; we model them as Lean
  `String` and perform all length/slicing/search operations on `String.data`
  (a `List Char`, i.e. a list of code points), which matches Python semantics.
* `str.lower()` / `str.upper()` are modelled with `Char.toLower`/`Char.toUpper`
  mapped over the code points (ASCII case mapping; all data relevant to the
  spec is ASCII).
* Raw HTTP bodies are byte strings.  The only operations performed on them by
  the code are `len(...)` (byte count) and decoding (UTF-8, falling back to
  Latin-1, which never fails).  We model a raw body abstractly by its decoding
  behaviour: `RawBody.utf8 s` stands for a byte string that is valid UTF-8 and
  decodes to `s` (its byte count is `s.utf8ByteSize`); `RawBody.latin s`
  stands for a byte string that is not valid UTF-8 and whose Latin-1 decoding
  is `s` (Latin-1 maps one byte to one code point, so its byte count is the
  number of code points of `s`).
* The traffic directory is modelled as a `Disk`: the parse state of
  `index.json` plus an association list from record id to record-file content
  (`none` = file present but unparseable JSON).  Record ids are generated as
  16 lowercase hex digits, so no record file collides with the reserved name
  `index.json`; absence of an id from the list models absence of the file.
* JSON (de)serialisation of well-formed records is modelled as the identity:
  a parseable record file is its parsed record.  The HAR document built by
  `export_har` is kept as a structured value rather than serialised text.
* Python dicts preserve insertion order and `sorted` is a stable sort, so the
  counting/sorting in `get_request_stats` is modelled with insertion-ordered
  association lists and a stable insertion sort.
-/

/-! ## String primitives (Python code-point semantics) -/

/-- Python `s.lower()` on code points (ASCII case mapping). -/
def lowerStr (s : String) : String := String.mk (s.data.map Char.toLower)

/-- Python `s.upper()` on code points (ASCII case mapping). -/
def upperStr (s : String) : String := String.mk (s.data.map Char.toUpper)

/-- Python `len(s)` (number of code points). -/
def strLen (s : String) : Nat := s.data.length

/-- Python `s[:n]` (first `n` code points). -/
def strTake (n : Nat) (s : String) : String := String.mk (s.data.take n)

/-- Does `needle` occur at the front of `hay`? -/
def subAtFront : List Char → List Char → Bool
  | [], _ => true
  | _ :: _, [] => false
  | a :: as, b :: bs => a == b && subAtFront as bs

/-- Does `needle` occur contiguously anywhere in `hay`? -/
def listHasSub : List Char → List Char → Bool
  | needle, [] => needle.isEmpty
  | needle, b :: bs => subAtFront needle (b :: bs) || listHasSub needle bs

/-- Python `needle in hay` for strings (contiguous substring test). -/
def strIn (needle hay : String) : Bool := listHasSub needle.data hay.data

/-- Python `sep.join(l)`. -/
def joinStr (sep : String) : List String → String
  | [] => ""
  | [x] => x
  | x :: y :: rest => x ++ sep ++ joinStr sep (y :: rest)

/-- Python `"\n".join(l)`, the join used by every tool renderer. -/
def joinLines (l : List String) : String := joinStr "\n" l

/-- Lexicographic code-point comparison of strings (Python `<=` on `str`). -/
def charListLe : List Char → List Char → Bool
  | [], _ => true
  | _ :: _, [] => false
  | a :: as, b :: bs =>
    if a.val < b.val then true
    else if b.val < a.val then false
    else charListLe as bs

/-- Digits of `n`, grouped by thousands with commas: Python `f"{n:,}"`. -/
def commaRevAux : List Char → Nat → List Char
  | [], _ => []
  | c :: cs, i =>
    c :: (if (i + 1) % 3 == 0 && !cs.isEmpty then ',' :: commaRevAux cs (i + 1)
          else commaRevAux cs (i + 1))

/-- Python `f"{n:,}"` for a natural number. -/
def commaFmt (n : Nat) : String :=
  String.mk ((commaRevAux (toString n).data.reverse 0).reverse)

/-! ## Data model -/

/-- One entry of `index.json`'s `requests` array, as written by
`TrafficCapture.response` in `mitmproxy_addon.py`. -/
structure IndexEntry where
  id : String
  timestamp : String
  method : String
  url : String
  host : String
  status_code : Int
  content_type : String
  request_size : Nat
  response_size : Nat
  deriving Repr, DecidableEq

/-- The parsed content of `index.json` (`{"requests": [...]}`). -/
structure IndexDoc where
  requests : List IndexEntry
  deriving Repr, DecidableEq

/-- The `request` sub-object of a stored record. -/
structure ReqData where
  method : String
  url : String
  host : String
  port : Nat
  path : String
  scheme : String
  headers : List (String × String)
  content : String
  content_length : Nat
  deriving Repr, DecidableEq

/-- The `response` sub-object of a stored record. -/
structure RespData where
  status_code : Int
  reason : String
  headers : List (String × String)
  content : String
  content_length : Nat
  deriving Repr, DecidableEq

/-- A full stored transaction record (`<id>.json`). -/
structure Rec where
  id : String
  timestamp : String
  request : ReqData
  response : RespData
  deriving Repr, DecidableEq

/-- A raw HTTP body (byte string), abstracted by its decoding behaviour.
`utf8 s`: valid UTF-8 bytes decoding to `s`.  `latin s`: bytes that are not
valid UTF-8; Latin-1 decoding (which never fails) yields `s`, one code point
per byte. -/
inductive RawBody where
  | utf8 (s : String)
  | latin (s : String)
  deriving Repr, DecidableEq

/-- Python `len(content)`: the byte count of a raw body. -/
def RawBody.len : RawBody → Nat
  | .utf8 s => s.utf8ByteSize
  | .latin s => strLen s

/-- Parse state of the `index.json` file on disk. -/
inductive IndexFile where
  | missing
  | corrupt
  | parsed (doc : IndexDoc)
  deriving Repr, DecidableEq

/-- The traffic directory: the index file plus the record files, keyed by
record id (`<id>.json`); a value of `none` models a file whose content fails
to parse as JSON. -/
structure Disk where
  index : IndexFile
  files : List (String × Option Rec)
  deriving Repr, DecidableEq

/-- Look up a record file by id (`none` = no such file). -/
def getFile : List (String × Option Rec) → String → Option (Option Rec)
  | [], _ => none
  | (k, v) :: rest, i => if k = i then some v else getFile rest i

/-- Write a record file (create or overwrite). -/
def setFile : List (String × Option Rec) → String → Option Rec → List (String × Option Rec)
  | [], i, r => [(i, r)]
  | (k, v) :: rest, i, r => if k = i then (i, r) :: rest else (k, v) :: setFile rest i r

/-! ## Store operations (`mcp_proxy_server.py` helpers) -/

/-- `read_index`: the parsed index, or `{"requests": []}` when the file is
missing or unparseable (`json.JSONDecodeError`/`IOError` are swallowed). -/
def read_index (d : Disk) : IndexDoc :=
  match d.index with
  | .parsed doc => doc
  | _ => ⟨[]⟩

/-- `read_request`: the parsed record for an id, or `None` when the file is
absent or its content fails to parse. -/
def read_request (d : Disk) (request_id : String) : Option Rec :=
  match getFile d.files request_id with
  | some (some r) => some r
  | _ => none

/-- `clear_traffic`: delete every `*.json` record file except `index.json`,
then overwrite the index with `{"requests": []}`. -/
def clear_traffic (_d : Disk) : Disk :=
  { index := IndexFile.parsed ⟨[]⟩, files := [] }

/-! ## Record Codec and Ingestion Path (`mitmproxy_addon.py`) -/

/-- The binary media-type markers of `TrafficCapture._safe_decode`. -/
def binary_types : List String :=
  ["image/", "audio/", "video/", "application/octet-stream",
   "application/pdf", "application/zip", "application/gzip"]

/-- The binary check of `_safe_decode`: some marker occurs as a substring of
the lowercased content type (`bt in content_type.lower()`). -/
def isBinaryCT (content_type : String) : Bool :=
  binary_types.any (fun bt => strIn bt (lowerStr content_type))

/-- `TrafficCapture._safe_decode`: `""` for an absent body; a placeholder for
a binary-typed body; otherwise UTF-8 decoding with Latin-1 fallback (the
Latin-1 decode never fails, so the final `[Binary content: N bytes]` branch of
the source is unreachable). -/
def safe_decode (content : Option RawBody) (content_type : String) : String :=
  match content with
  | none => ""
  | some b =>
    if isBinaryCT content_type then
      "[Binary content: " ++ toString b.len ++ " bytes, type: " ++ content_type ++ "]"
    else
      match b with
      | .utf8 s => s
      | .latin s => s

/-- Python `len(content) if content else 0`.  An absent body has length 0;
an empty byte string also has length 0, so truthiness agrees with length. -/
def bodyLen : Option RawBody → Nat
  | none => 0
  | some b => b.len

/-- Case-insensitive header lookup with default `""` (mitmproxy `Headers.get`). -/
def headerGetCI (hs : List (String × String)) (k : String) : String :=
  match hs.find? (fun kv => lowerStr kv.1 == lowerStr k) with
  | some kv => kv.2
  | none => ""

/-- Case-sensitive dict lookup with default `""` (Python `dict.get(k, "")`),
used by `export_har` on the stored header maps. -/
def dictGet (hs : List (String × String)) (k : String) : String :=
  match hs.find? (fun kv => kv.1 == k) with
  | some kv => kv.2
  | none => ""

/-- A completed captured exchange as handed to `TrafficCapture.response` by
the proxy engine (method, URL, headers, raw bodies, status). -/
structure Captured where
  method : String
  url : String
  host : String
  port : Nat
  path : String
  scheme : String
  reqHeaders : List (String × String)
  reqBody : Option RawBody
  respHeaders : List (String × String)
  respBody : Option RawBody
  status_code : Int
  reason : String
  deriving Repr, DecidableEq

/-- The record and index entry built by `TrafficCapture.response` for one
captured exchange (given the generated id and timestamp). -/
def response_capture (id timestamp : String) (c : Captured) : Rec × IndexEntry :=
  let req_content_type := headerGetCI c.reqHeaders "content-type"
  let resp_content_type := headerGetCI c.respHeaders "content-type"
  let record : Rec :=
    { id := id, timestamp := timestamp,
      request :=
        { method := c.method, url := c.url, host := c.host, port := c.port,
          path := c.path, scheme := c.scheme, headers := c.reqHeaders,
          content := safe_decode c.reqBody req_content_type,
          content_length := bodyLen c.reqBody },
      response :=
        { status_code := c.status_code, reason := c.reason, headers := c.respHeaders,
          content := safe_decode c.respBody resp_content_type,
          content_length := bodyLen c.respBody } }
  let entry : IndexEntry :=
    { id := id, timestamp := timestamp, method := c.method, url := c.url,
      host := c.host, status_code := c.status_code,
      content_type := resp_content_type,
      request_size := bodyLen c.reqBody, response_size := bodyLen c.respBody }
  (record, entry)

/-- The disk effect of `TrafficCapture.response`: write the record file, then
append the index entry and rewrite the index. -/
def ingest (d : Disk) (id timestamp : String) (c : Captured) : Disk :=
  let rc := response_capture id timestamp c
  { index := IndexFile.parsed ⟨(read_index d).requests ++ [rc.2]⟩,
    files := setFile d.files id (some rc.1) }

/-! ## Tool arguments -/

/-- The argument object of a tool call (a JSON dict); absent keys are `none`.
Values are assumed well-typed per the tool input schemas. -/
structure ToolArgs where
  limit : Option Int := none
  host_filter : Option String := none
  method_filter : Option String := none
  status_filter : Option Int := none
  url_filter : Option String := none
  request_id : Option String := none
  query : Option String := none
  search_headers : Option Bool := none
  request_ids : Option (List String) := none
  deriving Repr, DecidableEq

/-- An empty argument dict. -/
def noArgs : ToolArgs := {}

/-! ## Query Engine: `list_requests` -/

/-- The extracted parameters of `tool_list_requests`, with source defaults. -/
structure ListParams where
  limit : Int
  host_filter : String
  method_filter : String
  status_filter : Option Int
  url_filter : String
  deriving Repr, DecidableEq

/-- Parameter extraction of `tool_list_requests` (`params.get` with defaults). -/
def listParamsOf (args : ToolArgs) : ListParams :=
  { limit := args.limit.getD 100,
    host_filter := args.host_filter.getD "",
    method_filter := args.method_filter.getD "",
    status_filter := args.status_filter,
    url_filter := args.url_filter.getD "" }

/-- Python truthiness of the `status_filter` value: present and nonzero. -/
def statusTruthy (sf : Option Int) : Prop := sf ≠ none ∧ sf ≠ some 0

instance (sf : Option Int) : Decidable (statusTruthy sf) := by
  unfold statusTruthy; infer_instance

/-- The filter loop body of `tool_list_requests`: `true` iff the entry
survives every `continue` guard. -/
def keepEntry (p : ListParams) (r : IndexEntry) : Bool :=
  let hf := lowerStr p.host_filter
  let mf := upperStr p.method_filter
  let uf := lowerStr p.url_filter
  if hf ≠ "" ∧ strIn hf (lowerStr r.host) = false then false
  else if mf ≠ "" ∧ upperStr r.method ≠ mf then false
  else if statusTruthy p.status_filter ∧ some r.status_code ≠ p.status_filter then false
  else if uf ≠ "" ∧ strIn uf (lowerStr r.url) = false then false
  else true

/-- The filtering and limiting core of `tool_list_requests`: the `filtered`
list after the loop and the `filtered[-limit:]` slice. -/
def listCore (p : ListParams) (requests : List IndexEntry) : List IndexEntry :=
  let filtered := requests.filter (keepEntry p)
  if 0 < p.limit then filtered.drop (filtered.length - p.limit.toNat) else filtered

/-- One summary block of the `tool_list_requests` output. -/
def listLine (r : IndexEntry) : String :=
  "[" ++ r.id ++ "] " ++ r.timestamp ++ "\n  " ++ r.method ++ " " ++ r.url ++
  "\n  Status: " ++ toString r.status_code ++ " | Request: " ++
  toString r.request_size ++ " bytes | Response: " ++
  toString r.response_size ++ " bytes\n"

/-- `tool_list_requests`: filter the index, apply the limit, render. -/
def tool_list_requests (args : ToolArgs) (d : Disk) : String :=
  let p := listParamsOf args
  let filtered := listCore p (read_index d).requests
  if filtered = [] then
    "No requests captured yet. Configure your browser to use the proxy at localhost:8888."
  else
    joinLines (("Found " ++ toString filtered.length ++ " captured requests:\n")
      :: filtered.map listLine)

/-! ## Query Engine: `read_request` -/

/-- Header rendering lines (`  key: value`) of `tool_read_request`. -/
def renderHeaders (hs : List (String × String)) : List String :=
  hs.map (fun kv => "  " ++ kv.1 ++ ": " ++ kv.2)

/-- The rendered response body of `tool_read_request`: bodies longer than
50000 code points are cut to the first 50000 and a truncation marker stating
the original length is appended. -/
def renderedRespBody (c : String) : String :=
  if 50000 < strLen c then
    strTake 50000 c ++ "\n... [truncated, " ++ toString (strLen c) ++ " total bytes]"
  else c

/-- The `output` line list of `tool_read_request` for a found record. -/
def readRequestLines (data : Rec) : List String :=
  ["=== REQUEST " ++ data.id ++ " ===",
   "Timestamp: " ++ data.timestamp,
   "",
   "--- REQUEST ---",
   data.request.method ++ " " ++ data.request.url,
   "Host: " ++ data.request.host ++ ":" ++ toString data.request.port,
   "Scheme: " ++ data.request.scheme,
   "",
   "Request Headers:"]
  ++ renderHeaders data.request.headers
  ++ [""]
  ++ (if data.request.content ≠ "" then
        ["Request Body (" ++ toString data.request.content_length ++ " bytes):",
         data.request.content]
      else ["Request Body: (empty)"])
  ++ ["",
      "--- RESPONSE ---",
      "Status: " ++ toString data.response.status_code ++ " " ++ data.response.reason,
      "",
      "Response Headers:"]
  ++ renderHeaders data.response.headers
  ++ [""]
  ++ (if data.response.content ≠ "" then
        ["Response Body (" ++ toString data.response.content_length ++ " bytes):",
         renderedRespBody data.response.content]
      else ["Response Body: (empty)"])

/-- `tool_read_request`: required-parameter check, store lookup, rendering. -/
def tool_read_request (args : ToolArgs) (d : Disk) : String :=
  let rid := args.request_id.getD ""
  if rid = "" then "Error: request_id is required"
  else
    match read_request d rid with
    | none => "Error: Request with ID '" ++ rid ++ "' not found"
    | some data => joinLines (readRequestLines data)

/-! ## Query Engine: `search_requests` -/

/-- One reported search match. -/
structure SMatch where
  id : String
  method : String
  url : String
  found_in : List String
  deriving Repr, DecidableEq

/-- The header loop of `tool_search_requests` (`break` on the first header
whose name or value contains the already-lowercased query). -/
def headerScan (q : String) : List (String × String) → Bool
  | [] => false
  | (k, v) :: rest =>
    if strIn q (lowerStr k) || strIn q (lowerStr v) then true else headerScan q rest

/-- The `found_in` category list built for one record (`q` already lowered). -/
def foundCats (q : String) (sh : Bool) (data : Rec) : List String :=
  (if strIn q (lowerStr data.request.content) then ["request body"] else [])
  ++ (if strIn q (lowerStr data.response.content) then ["response body"] else [])
  ++ (if strIn q (lowerStr data.request.url) then ["URL"] else [])
  ++ (if sh then
        (if headerScan q data.request.headers then ["request headers"] else [])
        ++ (if headerScan q data.response.headers then ["response headers"] else [])
      else [])

/-- The per-record step of the search loop: the reported match, or `none`
when no category hit (`q` already lowered). -/
def searchEntry (q : String) (sh : Bool) (e : IndexEntry) (data : Rec) : Option SMatch :=
  let found := foundCats q sh data
  if found = [] then none else some ⟨e.id, e.method, e.url, found⟩

/-- The search loop of `tool_search_requests` over the index: per entry, load
the record (skipping unreadable ones) and test it. -/
def tool_search_core (query : String) (sh : Bool) (d : Disk) : List SMatch :=
  (read_index d).requests.filterMap (fun e =>
    match read_request d e.id with
    | none => none
    | some data => searchEntry (lowerStr query) sh e data)

/-- One match block of the `tool_search_requests` output. -/
def searchLine (m : SMatch) : String :=
  "[" ++ m.id ++ "] " ++ m.method ++ " " ++ m.url ++ "\n  Found in: " ++
  joinStr ", " m.found_in ++ "\n"

/-- `tool_search_requests`: lower the query, require it nonempty, scan, render. -/
def tool_search_requests (args : ToolArgs) (d : Disk) : String :=
  let q := lowerStr (args.query.getD "")
  let sh := args.search_headers.getD false
  if q = "" then "Error: query is required"
  else
    let results := tool_search_core (args.query.getD "") sh d
    if results = [] then "No requests found matching '" ++ q ++ "'"
    else
      joinLines (("Found " ++ toString results.length ++ " requests matching '" ++ q ++ "':\n")
        :: results.map searchLine)

/-! ## Query Engine: `get_request_stats` -/

/-- Counting into an insertion-ordered association list
(`d[k] = d.get(k, 0) + 1` on a Python dict, which preserves insertion order). -/
def bumpCount : List (String × Nat) → String → List (String × Nat)
  | [], k => [(k, 1)]
  | (a, n) :: rest, k =>
    if a = k then (a, n + 1) :: rest else (a, n) :: bumpCount rest k

/-- Tally a list of keys in first-occurrence order. -/
def tally (keys : List String) : List (String × Nat) :=
  keys.foldl bumpCount []

/-- Stable ordered insertion: place `a` before the first element it may
precede (`le a b`), after equals — the placement Python's stable `sorted`
gives items of the original order. -/
def ordInsert (le : α → α → Bool) (a : α) : List α → List α
  | [] => [a]
  | b :: bs => if le a b then a :: b :: bs else b :: ordInsert le a bs

/-- Stable insertion sort, modelling Python's stable `sorted`. -/
def insSort (le : α → α → Bool) : List α → List α
  | [] => []
  | a :: as => ordInsert le a (insSort le as)

/-- `sorted(items, key=lambda x: -x[1])`: descending by count, ties in
insertion order. -/
def sortDescByCount (l : List (String × Nat)) : List (String × Nat) :=
  insSort (fun x y => decide (y.2 ≤ x.2)) l

/-- `sorted(items)` on string-keyed pairs with distinct keys: ascending by key. -/
def sortAscByKey (l : List (String × Nat)) : List (String × Nat) :=
  insSort (fun x y => charListLe x.1.data y.1.data) l

/-- The status-class label `f"{status // 100}xx"` (Python `//` floors). -/
def statusGroup (status : Int) : String :=
  toString (Int.fdiv status 100) ++ "xx"

/-- One grouping line `  key: count`. -/
def statLine (kv : String × Nat) : String := "  " ++ kv.1 ++ ": " ++ toString kv.2

/-- `tool_get_request_stats`: totals plus counts by host (top 10, descending),
method (descending) and status class (ascending by label). -/
def tool_get_request_stats (d : Disk) : String :=
  let requests := (read_index d).requests
  if requests = [] then "No requests captured yet."
  else
    let total := requests.length
    let by_host := tally (requests.map (fun r => r.host))
    let by_method := tally (requests.map (fun r => r.method))
    let by_status := tally (requests.map (fun r => statusGroup r.status_code))
    let total_request_size := (requests.map (fun r => r.request_size)).sum
    let total_response_size := (requests.map (fun r => r.response_size)).sum
    joinLines
      (["=== Traffic Statistics ===",
        "Total Requests: " ++ toString total,
        "Total Request Data: " ++ commaFmt total_request_size ++ " bytes",
        "Total Response Data: " ++ commaFmt total_response_size ++ " bytes",
        "",
        "By Host (top 10):"]
       ++ ((sortDescByCount by_host).take 10).map statLine
       ++ ["", "By Method:"]
       ++ (sortDescByCount by_method).map statLine
       ++ ["", "By Status Code:"]
       ++ (sortAscByKey by_status).map statLine)

/-! ## Query Engine: `export_har` -/

/-- One HAR entry as assembled by `tool_export_har` (constant fields of the
source — `httpVersion`, `queryString: []`, `cache`, `timings` — carried as
written). -/
structure HarEntry where
  startedDateTime : String
  reqMethod : String
  reqUrl : String
  reqHttpVersion : String
  reqHeaders : List (String × String)
  reqBodySize : Nat
  postData : Option (String × String)
  respStatus : Int
  respStatusText : String
  respHttpVersion : String
  respHeaders : List (String × String)
  contentSize : Nat
  contentMime : String
  contentText : String
  respBodySize : Nat
  deriving Repr, DecidableEq

/-- The HAR entry built from one stored record (`postData` omitted when the
request body is empty; mime types via case-sensitive dict lookup). -/
def harEntryOf (data : Rec) : HarEntry :=
  { startedDateTime := data.timestamp,
    reqMethod := data.request.method,
    reqUrl := data.request.url,
    reqHttpVersion := "HTTP/1.1",
    reqHeaders := data.request.headers,
    reqBodySize := data.request.content_length,
    postData :=
      if data.request.content ≠ "" then
        some (dictGet data.request.headers "content-type", data.request.content)
      else none,
    respStatus := data.response.status_code,
    respStatusText := data.response.reason,
    respHttpVersion := "HTTP/1.1",
    respHeaders := data.response.headers,
    contentSize := data.response.content_length,
    contentMime := dictGet data.response.headers "content-type",
    contentText := data.response.content,
    respBodySize := data.response.content_length }

/-- A tool result: plain text, or the structured HAR document that
`tool_export_har` serialises (`log.version`, `log.creator`, `log.entries`). -/
inductive ToolOut where
  | text (s : String)
  | har (version creatorName creatorVersion : String) (entries : List HarEntry)
  deriving Repr, DecidableEq

/-- `tool_export_har`: an empty id list selects every indexed id; if the
selection is still empty, the textual no-export result; otherwise a HAR
document whose entries skip unresolvable ids. -/
def tool_export_har (args : ToolArgs) (d : Disk) : ToolOut :=
  let ids0 := args.request_ids.getD []
  let ids := if ids0 = [] then (read_index d).requests.map (fun r => r.id) else ids0
  if ids = [] then ToolOut.text "No requests to export."
  else
    ToolOut.har "1.2" "mitmproxy-mcp" "1.0.0"
      (ids.filterMap (fun i => (read_request d i).map harEntryOf))

/-! ## Protocol Adapter: `handle_tool_call` -/

/-- A tool-call outcome: a successful result, or a structured error with a
numeric code and message. -/
inductive RpcOut where
  | ok (result : ToolOut)
  | err (code : Int) (msg : String)
  deriving Repr, DecidableEq

/-- The names in the `handlers` dispatch dict. -/
def toolNames : List String :=
  ["list_requests", "read_request", "search_requests", "clear_requests",
   "get_request_stats", "export_har"]

/-- `handle_tool_call`: dispatch by tool name, threading the disk state; an
unknown name yields error `-32601` naming the tool.  (The read-side handlers
perform no writes, so they return the disk unchanged.) -/
def handle_tool_call (name : String) (args : ToolArgs) (d : Disk) : Disk × RpcOut :=
  if name = "list_requests" then (d, RpcOut.ok (ToolOut.text (tool_list_requests args d)))
  else if name = "read_request" then (d, RpcOut.ok (ToolOut.text (tool_read_request args d)))
  else if name = "search_requests" then (d, RpcOut.ok (ToolOut.text (tool_search_requests args d)))
  else if name = "clear_requests" then
    (clear_traffic d, RpcOut.ok (ToolOut.text "All captured requests have been cleared."))
  else if name = "get_request_stats" then (d, RpcOut.ok (ToolOut.text (tool_get_request_stats d)))
  else if name = "export_har" then (d, RpcOut.ok (tool_export_har args d))
  else (d, RpcOut.err (-32601) ("Unknown tool: " ++ name))

/-! ## Spec-side predicates

These follow the wording of the specification and the claims (case-insensitive
substring / exact-match filters, existential header hits), to be compared with
the code-side definitions above. -/

/-- The spec's "`needle` occurs case-insensitively in `hay`". -/
def containsCI (hay needle : String) : Prop :=
  strIn (lowerStr needle) (lowerStr hay) = true

instance (hay needle : String) : Decidable (containsCI hay needle) := by
  unfold containsCI; infer_instance

/-- The spec's list filter: the conjunction of the four optional filters —
host: case-insensitive substring; method: case-insensitive exact match;
status_code: exact match; url: case-insensitive substring; an empty or absent
filter (for the integer status filter: absent or `0`, the falsy value)
matches every entry. -/
def specMatches (p : ListParams) (r : IndexEntry) : Prop :=
  (p.host_filter = "" ∨ containsCI r.host p.host_filter)
  ∧ (p.method_filter = "" ∨ upperStr r.method = upperStr p.method_filter)
  ∧ (p.status_filter = none ∨ p.status_filter = some 0 ∨ p.status_filter = some r.status_code)
  ∧ (p.url_filter = "" ∨ containsCI r.url p.url_filter)

instance (p : ListParams) (r : IndexEntry) : Decidable (specMatches p r) := by
  unfold specMatches; infer_instance

/-- The spec's header hit: some header of the list has the query in its name
or value, case-insensitively. -/
def specHeaderHit (q : String) (hs : List (String × String)) : Prop :=
  ∃ kv ∈ hs, containsCI kv.1 q ∨ containsCI kv.2 q

instance (q : String) (hs : List (String × String)) : Decidable (specHeaderHit q hs) := by
  unfold specHeaderHit; infer_instance

/-- The spec's category annotation for one searched record: exactly the
categories in which the query occurs. -/
def specCats (q : String) (sh : Bool) (data : Rec) : List String :=
  (if containsCI data.request.content q then ["request body"] else [])
  ++ (if containsCI data.response.content q then ["response body"] else [])
  ++ (if containsCI data.request.url q then ["URL"] else [])
  ++ (if sh then
        (if specHeaderHit q data.request.headers then ["request headers"] else [])
        ++ (if specHeaderHit q data.response.headers then ["response headers"] else [])
      else [])

/-- The spec's search hit condition for one record. -/
def specHit (q : String) (sh : Bool) (data : Rec) : Prop :=
  containsCI data.request.content q ∨ containsCI data.response.content q
  ∨ containsCI data.request.url q
  ∨ (sh = true ∧ (specHeaderHit q data.request.headers ∨ specHeaderHit q data.response.headers))

/-! ## Helper lemmas -/

theorem string_data_eq_nil {s : String} : s.data = [] ↔ s = "" := by
  cases s with
  | mk l =>
    constructor
    · intro h
      subst h
      rfl
    · intro h
      exact congrArg String.data h

theorem lowerStr_eq_empty {s : String} : lowerStr s = "" ↔ s = "" := by
  constructor
  · intro h
    have hd := congrArg String.data h
    simp only [lowerStr] at hd
    exact string_data_eq_nil.mp (List.map_eq_nil_iff.mp hd)
  · intro h
    subst h
    rfl

theorem upperStr_eq_empty {s : String} : upperStr s = "" ↔ s = "" := by
  constructor
  · intro h
    have hd := congrArg String.data h
    simp only [upperStr] at hd
    exact string_data_eq_nil.mp (List.map_eq_nil_iff.mp hd)
  · intro h
    subst h
    rfl

/-- The host/url guard of the filter loop is the spec's optional
case-insensitive substring filter. -/
theorem strFilterClause (f h : String) :
    ¬(lowerStr f ≠ "" ∧ strIn (lowerStr f) (lowerStr h) = false)
      ↔ (f = "" ∨ strIn (lowerStr f) (lowerStr h) = true) := by
  constructor
  · intro hn
    by_cases hf : f = ""
    · exact Or.inl hf
    · cases hb : strIn (lowerStr f) (lowerStr h) with
      | true => exact Or.inr rfl
      | false => exact absurd ⟨fun he => hf (lowerStr_eq_empty.mp he), hb⟩ hn
  · rintro (hf | ht) ⟨hne, hfalse⟩
    · exact hne (lowerStr_eq_empty.mpr hf)
    · rw [ht] at hfalse
      cases hfalse

/-- The method guard of the filter loop is the spec's optional
case-insensitive exact-match filter. -/
theorem methodClause (f m : String) :
    ¬(upperStr f ≠ "" ∧ upperStr m ≠ upperStr f) ↔ (f = "" ∨ upperStr m = upperStr f) := by
  constructor
  · intro hn
    by_cases hf : f = ""
    · exact Or.inl hf
    · by_cases he : upperStr m = upperStr f
      · exact Or.inr he
      · exact absurd ⟨fun hu => hf (upperStr_eq_empty.mp hu), he⟩ hn
  · rintro (hf | he) ⟨hne, hneq⟩
    · exact hne (upperStr_eq_empty.mpr hf)
    · exact hneq he

/-- The status guard of the filter loop is the spec's optional exact-match
filter, with `0` acting as the absent (falsy) value. -/
theorem statusClause (sf : Option Int) (sc : Int) :
    ¬(statusTruthy sf ∧ some sc ≠ sf) ↔ (sf = none ∨ sf = some 0 ∨ sf = some sc) := by
  unfold statusTruthy
  rcases sf with _ | v
  · simp
  · by_cases hv : v = 0
    · subst hv
      simp
    · constructor
      · intro hn
        by_cases hsc : sc = v
        · subst hsc
          exact Or.inr (Or.inr rfl)
        · exact absurd ⟨⟨fun h => Option.noConfusion h, fun h => hv (Option.some.inj h)⟩,
            fun h => hsc (Option.some.inj h)⟩ hn
      · rintro (h | h | h) ⟨⟨hn0, hns⟩, hne⟩
        · cases h
        · exact hv (Option.some.inj h)
        · exact hne (congrArg some (Option.some.inj h).symm)

/-- The filter loop keeps exactly the entries matching the spec predicate. -/
theorem keepEntry_iff (p : ListParams) (r : IndexEntry) :
    keepEntry p r = true ↔ specMatches p r := by
  show (if lowerStr p.host_filter ≠ "" ∧ strIn (lowerStr p.host_filter) (lowerStr r.host) = false
          then false
        else if upperStr p.method_filter ≠ "" ∧ upperStr r.method ≠ upperStr p.method_filter
          then false
        else if statusTruthy p.status_filter ∧ some r.status_code ≠ p.status_filter
          then false
        else if lowerStr p.url_filter ≠ "" ∧ strIn (lowerStr p.url_filter) (lowerStr r.url) = false
          then false
        else true) = true ↔ specMatches p r
  by_cases g1 : lowerStr p.host_filter ≠ "" ∧ strIn (lowerStr p.host_filter) (lowerStr r.host) = false
  · rw [if_pos g1]
    simp only [Bool.false_eq_true, false_iff]
    intro hs
    exact (strFilterClause p.host_filter r.host).mpr hs.1 g1
  · rw [if_neg g1]
    by_cases g2 : upperStr p.method_filter ≠ "" ∧ upperStr r.method ≠ upperStr p.method_filter
    · rw [if_pos g2]
      simp only [Bool.false_eq_true, false_iff]
      intro hs
      exact (methodClause p.method_filter r.method).mpr hs.2.1 g2
    · rw [if_neg g2]
      by_cases g3 : statusTruthy p.status_filter ∧ some r.status_code ≠ p.status_filter
      · rw [if_pos g3]
        simp only [Bool.false_eq_true, false_iff]
        intro hs
        exact (statusClause p.status_filter r.status_code).mpr hs.2.2.1 g3
      · rw [if_neg g3]
        by_cases g4 : lowerStr p.url_filter ≠ "" ∧ strIn (lowerStr p.url_filter) (lowerStr r.url) = false
        · rw [if_pos g4]
          simp only [Bool.false_eq_true, false_iff]
          intro hs
          exact (strFilterClause p.url_filter r.url).mpr hs.2.2.2 g4
        · rw [if_neg g4]
          simp only [true_iff]
          exact ⟨(strFilterClause p.host_filter r.host).mp g1,
                 (methodClause p.method_filter r.method).mp g2,
                 (statusClause p.status_filter r.status_code).mp g3,
                 (strFilterClause p.url_filter r.url).mp g4⟩

/-- The code-side and spec-side filters agree pointwise as `Bool`. -/
theorem keepEntry_eq_decide (p : ListParams) (r : IndexEntry) :
    keepEntry p r = decide (specMatches p r) := by
  by_cases hs : specMatches p r
  · rw [(keepEntry_iff p r).mpr hs, decide_eq_true hs]
  · rw [decide_eq_false hs]
    cases h : keepEntry p r with
    | false => rfl
    | true => exact absurd ((keepEntry_iff p r).mp h) hs

/-! ## Test fixtures for witnesses -/

/-- A store whose index parses as empty and with no record files. -/
def emptyDisk : Disk := ⟨IndexFile.parsed ⟨[]⟩, []⟩

/-- A sample index entry with status code 0. -/
def sampleEntry : IndexEntry :=
  ⟨"aaaabbbbccccdddd", "2024-01-01T00:00:00", "GET", "http://example.com/",
   "example.com", 0, "", 0, 0⟩

/-- Sample list parameters with an active status filter. -/
def sampleP : ListParams := ⟨100, "", "", some 7, ""⟩

/-! ## Claims -/

/-- C1: `list_requests` keeps exactly the index entries satisfying the
conjunction of the supplied filters — host: case-insensitive substring;
method: case-insensitive exact match; status_code: exact match; url:
case-insensitive substring; an empty or absent filter (for the integer
status filter, absent or the falsy `0`) matches every entry — in stored
(append) order; a positive limit keeps only the last `limit` matches in
their original relative order, and a limit of `0` or negative keeps all. -/
theorem list_requests_filter_semantics (p : ListParams) (requests : List IndexEntry) :
    listCore p requests =
      if 0 < p.limit then
        (requests.filter (fun r => decide (specMatches p r))).drop
          ((requests.filter (fun r => decide (specMatches p r))).length - p.limit.toNat)
      else
        requests.filter (fun r => decide (specMatches p r)) := by
  unfold listCore
  rw [List.filter_congr (fun r _ => keepEntry_eq_decide p r)]

/-- C9: passing `status_filter = 0` to `list_requests` behaves exactly like
omitting the status filter (Python falsiness disables the guard), and an
index entry whose status code is `0` is always rejected by any active
(nonzero) status filter, so such entries can never be selected by status. -/
theorem status_filter_zero_absent (args : ToolArgs) (d : Disk) (p : ListParams)
    (requests : List IndexEntry) (v : Int) (r : IndexEntry) :
    tool_list_requests { args with status_filter := some 0 } d
      = tool_list_requests { args with status_filter := none } d
  ∧ (p.status_filter = some v → v ≠ 0 → r.status_code = 0 →
      r ∉ listCore p requests) := by
  constructor
  · have hk : ∀ x, keepEntry (listParamsOf { args with status_filter := some 0 }) x
        = keepEntry (listParamsOf { args with status_filter := none }) x := by
      intro x
      simp [keepEntry, listParamsOf, statusTruthy]
    have hc : listCore (listParamsOf { args with status_filter := some 0 }) (read_index d).requests
        = listCore (listParamsOf { args with status_filter := none }) (read_index d).requests := by
      unfold listCore
      rw [List.filter_congr (fun x _ => hk x)]
      rfl
    simp only [tool_list_requests]
    rw [hc]
  · intro hsf hv h0 hmem
    have hsub : r ∈ requests.filter (keepEntry p) := by
      unfold listCore at hmem
      by_cases hl : 0 < p.limit
      · rw [if_pos hl] at hmem
        exact List.mem_of_mem_drop hmem
      · rw [if_neg hl] at hmem
        exact hmem
    have hkeep := List.of_mem_filter hsub
    have hspec := (keepEntry_iff p r).mp hkeep
    rcases hspec.2.2.1 with h | h | h
    · rw [hsf] at h
      cases h
    · rw [hsf] at h
      exact hv (Option.some.inj h)
    · rw [hsf, h0] at h
      exact hv (Option.some.inj h)

/-- Witness for C9: with an active filter `status_filter = 7`, an entry with
status code 0 is not listed. -/
theorem status_filter_zero_absent_witness :
    (sampleP.status_filter = some 7 ∧ (7 : Int) ≠ 0 ∧ sampleEntry.status_code = 0)
    ∧ sampleEntry ∉ listCore sampleP [sampleEntry] :=
  ⟨⟨rfl, by decide, rfl⟩,
   (status_filter_zero_absent noArgs emptyDisk sampleP [sampleEntry] 7 sampleEntry).2
     rfl (by decide) rfl⟩

/-- C3: the Store's read operations never escalate storage corruption:
`read_index` returns the full index in stored order when the index parses and
an empty sequence when the file is missing or unparseable; `read_request`
returns a not-found signal (`none`) when the record file is absent or its
content fails to parse. -/
theorem store_reads_degrade (files : List (String × Option Rec)) (doc : IndexDoc)
    (d : Disk) (i : String)
    (hbad : getFile d.files i = none ∨ getFile d.files i = some none) :
    read_index ⟨IndexFile.parsed doc, files⟩ = doc
  ∧ read_index ⟨IndexFile.missing, files⟩ = ⟨[]⟩
  ∧ read_index ⟨IndexFile.corrupt, files⟩ = ⟨[]⟩
  ∧ read_request d i = none := by
  refine ⟨rfl, rfl, rfl, ?_⟩
  unfold read_request
  rcases hbad with h | h <;> rw [h]

/-- A disk holding one unparseable record file. -/
def corruptDisk : Disk :=
  ⟨IndexFile.corrupt, [("aaaabbbbccccdddd", none)]⟩

/-- Witness for C3: a missing and an unparseable record both read as
not-found, and a corrupt index reads as empty. -/
theorem store_reads_degrade_witness :
    (getFile corruptDisk.files "aaaabbbbccccdddd" = some none)
    ∧ (read_index ⟨IndexFile.parsed ⟨[sampleEntry]⟩, []⟩ = ⟨[sampleEntry]⟩
       ∧ read_index ⟨IndexFile.missing, []⟩ = ⟨[]⟩
       ∧ read_index ⟨IndexFile.corrupt, []⟩ = ⟨[]⟩
       ∧ read_request corruptDisk "aaaabbbbccccdddd" = none) :=
  ⟨rfl, store_reads_degrade [] ⟨[sampleEntry]⟩ corruptDisk "aaaabbbbccccdddd"
    (Or.inr rfl)⟩

/-- C8: after `clear_requests` the store is empty: every record file is gone,
the index is overwritten with an empty entry sequence, `list_requests`
reports the zero-requests message, every `read_request` is not-found, and the
dispatcher returns the cleared disk with the confirmation text. -/
theorem clear_requests_empties_store (d : Disk) (args : ToolArgs) (i : String) :
    (clear_traffic d).files = []
  ∧ read_index (clear_traffic d) = ⟨[]⟩
  ∧ read_request (clear_traffic d) i = none
  ∧ tool_list_requests args (clear_traffic d)
      = "No requests captured yet. Configure your browser to use the proxy at localhost:8888."
  ∧ handle_tool_call "clear_requests" args d
      = (clear_traffic d, RpcOut.ok (ToolOut.text "All captured requests have been cleared.")) := by
  refine ⟨rfl, rfl, rfl, ?_, rfl⟩
  simp only [tool_list_requests, clear_traffic, read_index, listCore]
  have hfilter : List.filter (keepEntry (listParamsOf args)) [] = [] := rfl
  rw [hfilter]
  simp

/-- C10: every read-side operation is deterministic: on equal parameter
objects and equal store contents the result text is identical, including the
grouped orderings rendered by `get_request_stats`; the dispatcher as a whole
is a pure function of (tool name, arguments, disk). -/
theorem query_side_deterministic (name : String) (args : ToolArgs) (d1 d2 : Disk)
    (h : d1 = d2) :
    tool_list_requests args d1 = tool_list_requests args d2
  ∧ tool_read_request args d1 = tool_read_request args d2
  ∧ tool_search_requests args d1 = tool_search_requests args d2
  ∧ tool_get_request_stats d1 = tool_get_request_stats d2
  ∧ tool_export_har args d1 = tool_export_har args d2
  ∧ handle_tool_call name args d1 = handle_tool_call name args d2 := by
  subst h
  exact ⟨rfl, rfl, rfl, rfl, rfl, rfl⟩

/-- A small two-record store used by determinism and search witnesses. -/
def sampleRec : Rec :=
  ⟨"aaaabbbbccccdddd", "2024-01-01T00:00:00",
   ⟨"GET", "http://example.com/", "example.com", 80, "/", "http",
    [("Host", "example.com")], "", 0⟩,
   ⟨200, "OK", [("Content-Type", "text/html")], "hello FOO world", 15⟩⟩

/-- Index entry summarising `sampleRec`. -/
def sampleRecEntry : IndexEntry :=
  ⟨"aaaabbbbccccdddd", "2024-01-01T00:00:00", "GET", "http://example.com/",
   "example.com", 200, "text/html", 0, 15⟩

/-- A store holding `sampleRec`, indexed. -/
def sampleDisk : Disk :=
  ⟨IndexFile.parsed ⟨[sampleRecEntry]⟩, [("aaaabbbbccccdddd", some sampleRec)]⟩

/-- Witness for C10: the stats tool is deterministic on a concrete store. -/
theorem query_side_deterministic_witness :
    sampleDisk = sampleDisk
    ∧ tool_get_request_stats sampleDisk = tool_get_request_stats sampleDisk :=
  ⟨rfl, (query_side_deterministic "get_request_stats" noArgs sampleDisk sampleDisk rfl).2.2.2.1⟩

/-- Writing a record file and reading the same id back yields that record. -/
theorem getFile_setFile (files : List (String × Option Rec)) (i : String) (r : Option Rec) :
    getFile (setFile files i r) i = some r := by
  induction files with
  | nil => simp [setFile, getFile]
  | cons kv rest ih =>
    obtain ⟨k, v⟩ := kv
    by_cases hk : k = i
    · subst hk
      simp [setFile, getFile]
    · simp only [setFile, getFile, if_neg hk]
      exact ih

/-- C4: the Record Codec round-trips text: a body that is valid UTF-8 and
whose declared content type does not match the binary media-type markers is
stored verbatim, and reading the ingested record back through `read_request`
reproduces the exact original text; a body whose declared content type is
binary is stored only as a placeholder stating byte length and declared type,
which depends on the body only through its length, so the original bytes are
not recoverable from the record. -/
theorem record_codec_roundtrip (d : Disk) (id ts : String) (c : Captured) (s : String)
    (hnb : isBinaryCT (headerGetCI c.reqHeaders "content-type") = false)
    (hb : c.reqBody = some (RawBody.utf8 s)) :
    (read_request (ingest d id ts c) id).map (fun r => r.request.content) = some s
  ∧ (∀ b ct, isBinaryCT ct = true →
       safe_decode (some b) ct
         = "[Binary content: " ++ toString (RawBody.len b) ++ " bytes, type: " ++ ct ++ "]")
  ∧ (∀ b1 b2 ct, isBinaryCT ct = true → RawBody.len b1 = RawBody.len b2 →
       safe_decode (some b1) ct = safe_decode (some b2) ct) := by
  refine ⟨?_, ?_, ?_⟩
  · unfold ingest read_request
    simp only [getFile_setFile]
    simp [response_capture, safe_decode, hb, hnb]
  · intro b ct hbin
    simp [safe_decode, hbin]
  · intro b1 b2 ct hbin hlen
    simp [safe_decode, hbin, hlen]

/-- A captured text/plain exchange with body "hello". -/
def sampleCaptured : Captured :=
  ⟨"POST", "http://example.com/submit", "example.com", 80, "/submit", "http",
   [("Content-Type", "text/plain")], some (RawBody.utf8 "hello"),
   [("Content-Type", "text/plain")], some (RawBody.utf8 "ok"), 200, "OK"⟩

/-- Witness for C4: ingesting a UTF-8 `text/plain` body stores and returns it
verbatim, and two distinct binary bodies of equal length share one placeholder. -/
theorem record_codec_roundtrip_witness :
    (isBinaryCT (headerGetCI sampleCaptured.reqHeaders "content-type") = false
     ∧ sampleCaptured.reqBody = some (RawBody.utf8 "hello"))
    ∧ (read_request (ingest emptyDisk "eeeeffff00001111" "t0" sampleCaptured)
         "eeeeffff00001111").map (fun r => r.request.content) = some "hello"
    ∧ safe_decode (some (RawBody.latin "ab")) "image/png"
        = safe_decode (some (RawBody.latin "cd")) "image/png" :=
  ⟨⟨by decide, rfl⟩,
   (record_codec_roundtrip emptyDisk "eeeeffff00001111" "t0" sampleCaptured "hello"
      (by decide) rfl).1,
   (record_codec_roundtrip emptyDisk "eeeeffff00001111" "t0" sampleCaptured "hello"
      (by decide) rfl).2.2 (RawBody.latin "ab") (RawBody.latin "cd") "image/png"
      (by decide) rfl⟩

/-- When every element maps to `some`, `filterMap` preserves length. -/
theorem length_filterMap_of_isSome {α β : Type} (f : α → Option β) (l : List α)
    (h : ∀ a ∈ l, (f a).isSome = true) : (l.filterMap f).length = l.length := by
  induction l with
  | nil => rfl
  | cons a as ih =>
    obtain ⟨b, hb⟩ := Option.isSome_iff_exists.mp (h a (List.mem_cons_self a as))
    rw [List.filterMap_cons, hb]
    simp only [List.length_cons]
    rw [ih (fun x hx => h x (List.mem_cons_of_mem a hx))]

/-- Counterexample to C5: with a supplied id list whose only id resolves to
no record, `export_har` returns a HAR document with zero entries, not the
textual "nothing to export" message the claim requires. -/
theorem export_har_unresolvable_counterexample :
    read_request emptyDisk "0123456789abcdef" = none
  ∧ tool_export_har { request_ids := some ["0123456789abcdef"] } emptyDisk
      = ToolOut.har "1.2" "mitmproxy-mcp" "1.0.0" [] := by
  exact ⟨rfl, rfl⟩

/-- C5 (amended): `export_har` with an empty id list selects every stored id;
unresolvable ids are silently skipped; on a non-empty store in which every
index id resolves, `export_har([])` is a HAR document (`log.version "1.2"`,
fixed creator identity) whose entries count equals the store's record count in
processing order; and the textual "nothing to export" message is returned
exactly when the selected id list is empty — i.e. no ids were supplied and the
store is empty; ids that are supplied but all unresolvable instead produce a
HAR document with zero entries. -/
theorem export_har_amended (d : Disk) (ids : List String)
    (hall : ∀ e ∈ (read_index d).requests, (read_request d e.id).isSome = true) :
    tool_export_har { request_ids := some [] } d
      = tool_export_har { request_ids := some ((read_index d).requests.map (fun r => r.id)) } d
  ∧ (tool_export_har { request_ids := some ids } d = ToolOut.text "No requests to export."
       ↔ ids = [] ∧ (read_index d).requests = [])
  ∧ ((read_index d).requests ≠ [] →
       ∃ entries, tool_export_har { request_ids := some [] } d
           = ToolOut.har "1.2" "mitmproxy-mcp" "1.0.0" entries
         ∧ entries.length = (read_index d).requests.length) := by
  refine ⟨?_, ?_, ?_⟩
  · unfold tool_export_har
    by_cases hm : (read_index d).requests.map (fun r => r.id) = [] <;> simp [hm]
  · unfold tool_export_har
    by_cases hi : ids = []
    · subst hi
      by_cases hm : (read_index d).requests.map (fun r => r.id) = []
      · simp [hm, List.map_eq_nil_iff.mp hm]
      · simp [hm]
        intro hreq
        exact hm (by rw [hreq]; rfl)
    · simp [hi]
  · intro hne
    have hm : (read_index d).requests.map (fun r => r.id) ≠ [] :=
      fun h => hne (List.map_eq_nil_iff.mp h)
    have hmem : ∀ i ∈ (read_index d).requests.map (fun r => r.id),
        ((read_request d i).map harEntryOf).isSome = true := by
      intro i hi
      obtain ⟨r, hr, hri⟩ := List.mem_map.mp hi
      obtain ⟨x, hx⟩ := Option.isSome_iff_exists.mp (hall r hr)
      rw [← hri, hx]
      rfl
    refine ⟨((read_index d).requests.map (fun r => r.id)).filterMap
      (fun i => (read_request d i).map harEntryOf), ?_, ?_⟩
    · unfold tool_export_har
      simp [hm]
    · rw [length_filterMap_of_isSome _ _ hmem, List.length_map]

/-- Witness for C5 (amended): on a one-record store whose id resolves,
`export_har([])` is a HAR document with exactly one entry. -/
theorem export_har_amended_witness :
    (read_index sampleDisk).requests ≠ []
    ∧ (∀ e ∈ (read_index sampleDisk).requests, (read_request sampleDisk e.id).isSome = true)
    ∧ ∃ entries, tool_export_har { request_ids := some [] } sampleDisk
        = ToolOut.har "1.2" "mitmproxy-mcp" "1.0.0" entries
      ∧ entries.length = (read_index sampleDisk).requests.length :=
  ⟨by decide, by decide,
   (export_har_amended sampleDisk [] (by decide)).2.2 (by decide)⟩

/-- Counterexample to C7: a `read_request` call with no `request_id` yields a
successful textual result carrying the message, not a structured error. -/
theorem missing_param_counterexample :
    (handle_tool_call "read_request" noArgs emptyDisk).2
      = RpcOut.ok (ToolOut.text "Error: request_id is required") := by
  rfl

/-- C7 (amended): a call naming an unknown tool yields the structured error
code `-32601` with the tool name in the message; a `read_request` or
`search_requests` call omitting its required parameter instead yields a
successful textual result whose text names the missing parameter
(`request_id` / `query`), not a structured error. -/
theorem input_error_amended (name : String) (args : ToolArgs) (d : Disk)
    (hunk : name ∉ toolNames) :
    handle_tool_call name args d = (d, RpcOut.err (-32601) ("Unknown tool: " ++ name))
  ∧ (args.request_id.getD "" = "" →
       (handle_tool_call "read_request" args d).2
         = RpcOut.ok (ToolOut.text "Error: request_id is required"))
  ∧ (args.query.getD "" = "" →
       (handle_tool_call "search_requests" args d).2
         = RpcOut.ok (ToolOut.text "Error: query is required")) := by
  refine ⟨?_, ?_, ?_⟩
  · simp only [toolNames, List.mem_cons, List.not_mem_nil, or_false, not_or] at hunk
    obtain ⟨h1, h2, h3, h4, h5, h6⟩ := hunk
    simp only [handle_tool_call, if_neg h1, if_neg h2, if_neg h3, if_neg h4, if_neg h5, if_neg h6]
  · intro hrid
    simp only [handle_tool_call, tool_read_request, hrid]
    rfl
  · intro hq
    simp only [handle_tool_call, tool_search_requests, hq]
    rfl

/-- Witness for C7 (amended): an unrecognised tool name produces the
`-32601` error naming it. -/
theorem input_error_amended_witness :
    ("bogus_tool" ∉ toolNames)
    ∧ handle_tool_call "bogus_tool" noArgs emptyDisk
        = (emptyDisk, RpcOut.err (-32601) ("Unknown tool: " ++ "bogus_tool")) :=
  ⟨by decide, (input_error_amended "bogus_tool" noArgs emptyDisk (by decide)).1⟩

/-- Appending a final element to a nonempty join appends `sep ++ x`. -/
theorem joinStr_append_last (sep : String) (l : List String) (x : String) (h : l ≠ []) :
    joinStr sep (l ++ [x]) = joinStr sep l ++ sep ++ x := by
  induction l with
  | nil => exact absurd rfl h
  | cons a as ih =>
    cases as with
    | nil => simp [joinStr]
    | cons b bs =>
      have ih' := ih (by simp)
      have hstep : joinStr sep ((a :: b :: bs) ++ [x])
          = a ++ sep ++ joinStr sep (b :: (bs ++ [x])) := rfl
      have hstep2 : joinStr sep (a :: b :: bs) = a ++ sep ++ joinStr sep (b :: bs) := rfl
      have ih2 : joinStr sep (b :: (bs ++ [x])) = joinStr sep (b :: bs) ++ sep ++ x := by
        rw [← List.cons_append]
        exact ih'
      rw [hstep, ih2, hstep2]
      simp [String.append_assoc]

/-- The join of a line list ending in `x` ends in `x`. -/
theorem joinLines_last (l : List String) (x : String) (h : l ≠ []) :
    ∃ pre, joinLines (l ++ [x]) = pre ++ x :=
  ⟨joinLines l ++ "\n", by
    unfold joinLines
    rw [joinStr_append_last "\n" l x h]⟩

/-- The join of a line list ending in `y, x` ends in `x`. -/
theorem joinLines_last2 (l : List String) (y x : String) :
    ∃ pre, joinLines (l ++ [y, x]) = pre ++ x := by
  have h : l ++ [y, x] = (l ++ [y]) ++ [x] := by simp
  rw [h]
  exact joinLines_last (l ++ [y]) x (by simp)

/-- C6: `read_request` returns the fully formatted record, or a not-found
result for an unknown id; a stored response body longer than 50000 characters
is truncated only in the rendered output — the first 50000 characters plus a
marker stating the original length — while the store itself is untouched by
the call; a body at or below the threshold is rendered in full. -/
theorem read_request_view (args : ToolArgs) (d : Disk) (rid : String)
    (hr : args.request_id = some rid) (hne : rid ≠ "") :
    (read_request d rid = none →
       tool_read_request args d = "Error: Request with ID '" ++ rid ++ "' not found")
  ∧ (∀ data, read_request d rid = some data →
       tool_read_request args d = joinLines (readRequestLines data)
       ∧ (50000 < strLen data.response.content →
            ∃ pre, tool_read_request args d
              = pre ++ (strTake 50000 data.response.content ++ "\n... [truncated, "
                  ++ toString (strLen data.response.content) ++ " total bytes]"))
       ∧ (data.response.content ≠ "" → strLen data.response.content ≤ 50000 →
            ∃ pre, tool_read_request args d = pre ++ data.response.content))
  ∧ (handle_tool_call "read_request" args d).1 = d := by
  refine ⟨?_, ?_, rfl⟩
  · intro hnone
    simp only [tool_read_request, hr, Option.getD_some, if_neg hne, hnone]
  · intro data hsome
    have hout : tool_read_request args d = joinLines (readRequestLines data) := by
      simp only [tool_read_request, hr, Option.getD_some, if_neg hne, hsome]
    refine ⟨hout, ?_, ?_⟩
    · intro hlong
      have hc : data.response.content ≠ "" := by
        intro hce
        rw [hce] at hlong
        simp [strLen] at hlong
      have hlines : readRequestLines data =
          (["=== REQUEST " ++ data.id ++ " ===",
            "Timestamp: " ++ data.timestamp,
            "",
            "--- REQUEST ---",
            data.request.method ++ " " ++ data.request.url,
            "Host: " ++ data.request.host ++ ":" ++ toString data.request.port,
            "Scheme: " ++ data.request.scheme,
            "",
            "Request Headers:"]
           ++ renderHeaders data.request.headers
           ++ [""]
           ++ (if data.request.content ≠ "" then
                 ["Request Body (" ++ toString data.request.content_length ++ " bytes):",
                  data.request.content]
               else ["Request Body: (empty)"])
           ++ ["",
               "--- RESPONSE ---",
               "Status: " ++ toString data.response.status_code ++ " " ++ data.response.reason,
               "",
               "Response Headers:"]
           ++ renderHeaders data.response.headers
           ++ [""])
          ++ ["Response Body (" ++ toString data.response.content_length ++ " bytes):",
              renderedRespBody data.response.content] := by
        unfold readRequestLines
        rw [if_pos hc]
      rw [hout, hlines]
      obtain ⟨pre, hp⟩ := joinLines_last2 _
        ("Response Body (" ++ toString data.response.content_length ++ " bytes):")
        (renderedRespBody data.response.content)
      refine ⟨pre, ?_⟩
      rw [hp]
      unfold renderedRespBody
      rw [if_pos hlong]
    · intro hc hshort
      have hlines : readRequestLines data =
          (["=== REQUEST " ++ data.id ++ " ===",
            "Timestamp: " ++ data.timestamp,
            "",
            "--- REQUEST ---",
            data.request.method ++ " " ++ data.request.url,
            "Host: " ++ data.request.host ++ ":" ++ toString data.request.port,
            "Scheme: " ++ data.request.scheme,
            "",
            "Request Headers:"]
           ++ renderHeaders data.request.headers
           ++ [""]
           ++ (if data.request.content ≠ "" then
                 ["Request Body (" ++ toString data.request.content_length ++ " bytes):",
                  data.request.content]
               else ["Request Body: (empty)"])
           ++ ["",
               "--- RESPONSE ---",
               "Status: " ++ toString data.response.status_code ++ " " ++ data.response.reason,
               "",
               "Response Headers:"]
           ++ renderHeaders data.response.headers
           ++ [""])
          ++ ["Response Body (" ++ toString data.response.content_length ++ " bytes):",
              renderedRespBody data.response.content] := by
        unfold readRequestLines
        rw [if_pos hc]
      rw [hout, hlines]
      obtain ⟨pre, hp⟩ := joinLines_last2 _
        ("Response Body (" ++ toString data.response.content_length ++ " bytes):")
        (renderedRespBody data.response.content)
      refine ⟨pre, ?_⟩
      rw [hp]
      unfold renderedRespBody
      rw [if_neg (by omega)]

/-- A response body of 50001 identical characters. -/
def bigBody : String := String.mk (List.replicate 50001 'a')

/-- A record whose response body exceeds the render threshold. -/
def bigRec : Rec :=
  ⟨"ffff0000ffff0000", "2024-01-01T00:00:00",
   ⟨"GET", "http://example.com/big", "example.com", 80, "/big", "http", [], "", 0⟩,
   ⟨200, "OK", [], bigBody, 50001⟩⟩

/-- A store holding `bigRec`. -/
def bigDisk : Disk := ⟨IndexFile.parsed ⟨[]⟩, [("ffff0000ffff0000", some bigRec)]⟩

/-- Arguments addressing `bigRec`. -/
def bigArgs : ToolArgs := { request_id := some "ffff0000ffff0000" }

/-- Witness for C6: rendering a record with a 50001-character response body
ends in the first 50000 characters plus the truncation marker. -/
theorem read_request_view_witness :
    (bigArgs.request_id = some "ffff0000ffff0000"
     ∧ read_request bigDisk "ffff0000ffff0000" = some bigRec
     ∧ 50000 < strLen bigRec.response.content)
    ∧ ∃ pre, tool_read_request bigArgs bigDisk
        = pre ++ (strTake 50000 bigRec.response.content ++ "\n... [truncated, "
            ++ toString (strLen bigRec.response.content) ++ " total bytes]") := by
  have hlen : 50000 < strLen bigRec.response.content := by
    show 50000 < strLen bigBody
    unfold bigBody strLen
    rw [show (String.mk (List.replicate 50001 'a')).data = List.replicate 50001 'a' from rfl]
    rw [List.length_replicate]
    omega
  refine ⟨⟨rfl, rfl, hlen⟩, ?_⟩
  exact ((read_request_view bigArgs bigDisk "ffff0000ffff0000" rfl
    (by decide)).2.1 bigRec rfl).2.1 hlen

instance (q : String) (sh : Bool) (data : Rec) : Decidable (specHit q sh data) := by
  unfold specHit
  infer_instance

/-- The header loop (with its per-side short-circuit) reports a hit exactly
when some header name or value contains the lowered query. -/
theorem headerScan_iff (q : String) (hs : List (String × String)) :
    headerScan q hs = true
      ↔ ∃ kv ∈ hs, strIn q (lowerStr kv.1) = true ∨ strIn q (lowerStr kv.2) = true := by
  induction hs with
  | nil => simp [headerScan]
  | cons kv rest ih =>
    obtain ⟨k, v⟩ := kv
    unfold headerScan
    by_cases hk : (strIn q (lowerStr k) || strIn q (lowerStr v)) = true
    · rw [if_pos hk]
      constructor
      · intro _
        exact ⟨(k, v), List.mem_cons_self _ _, by simpa using hk⟩
      · intro _
        rfl
    · rw [if_neg hk, ih]
      constructor
      · rintro ⟨kv, hmem, hor⟩
        exact ⟨kv, List.mem_cons_of_mem _ hmem, hor⟩
      · rintro ⟨kv, hmem, hor⟩
        rcases List.mem_cons.mp hmem with heq | hmem'
        · subst heq
          exact absurd (by rcases hor with h | h <;> simp [h]) hk
        · exact ⟨kv, hmem', hor⟩

/-- The category list the code builds for the lowered query is the spec's
category annotation. -/
theorem foundCats_eq_specCats (q : String) (sh : Bool) (data : Rec) :
    foundCats (lowerStr q) sh data = specCats q sh data := by
  unfold foundCats specCats
  simp only [containsCI, specHeaderHit, headerScan_iff]

/-- The per-record search step yields a match exactly when the category list
is nonempty, and then reports exactly that list. -/
theorem searchEntry_eq_some_iff (q : String) (sh : Bool) (e : IndexEntry) (data : Rec)
    (m : SMatch) :
    searchEntry q sh e data = some m
      ↔ foundCats q sh data ≠ [] ∧ m = ⟨e.id, e.method, e.url, foundCats q sh data⟩ := by
  simp only [searchEntry]
  by_cases hf : foundCats q sh data = []
  · simp [hf]
  · simp only [if_neg hf]
    constructor
    · intro h
      exact ⟨hf, (Option.some.inj h).symm⟩
    · rintro ⟨_, hm⟩
      rw [hm]

/-- The category list is nonempty exactly when some tested category hits. -/
theorem foundCats_ne_nil_iff (q : String) (sh : Bool) (data : Rec) :
    foundCats q sh data ≠ [] ↔
      (strIn q (lowerStr data.request.content) = true
       ∨ strIn q (lowerStr data.response.content) = true
       ∨ strIn q (lowerStr data.request.url) = true
       ∨ (sh = true ∧ (headerScan q data.request.headers = true
                       ∨ headerScan q data.response.headers = true))) := by
  unfold foundCats
  cases sh with
  | false =>
    by_cases h1 : strIn q (lowerStr data.request.content) = true <;>
    by_cases h2 : strIn q (lowerStr data.response.content) = true <;>
    by_cases h3 : strIn q (lowerStr data.request.url) = true <;>
    simp [h1, h2, h3]
  | true =>
    by_cases h1 : strIn q (lowerStr data.request.content) = true <;>
    by_cases h2 : strIn q (lowerStr data.response.content) = true <;>
    by_cases h3 : strIn q (lowerStr data.request.url) = true <;>
    by_cases h4 : headerScan q data.request.headers = true <;>
    by_cases h5 : headerScan q data.response.headers = true <;>
    simp [h1, h2, h3, h4, h5]

/-- C2: for every store and non-empty query, `search_requests` includes a
record exactly when the query occurs case-insensitively in its request body,
response body, or request URL, or — with `search_headers` set — in a header
name or value of either side; each included record is annotated with exactly
the categories that matched, and a record with no occurrence in any tested
category is never included. -/
theorem search_requests_found_iff (q : String) (sh : Bool) (d : Disk)
    (hq : q ≠ "") (m : SMatch) :
    m ∈ tool_search_core q sh d
      ↔ ∃ e ∈ (read_index d).requests, ∃ data, read_request d e.id = some data
          ∧ specHit q sh data
          ∧ m = ⟨e.id, e.method, e.url, specCats q sh data⟩ := by
  unfold tool_search_core
  rw [List.mem_filterMap]
  constructor
  · rintro ⟨e, hmem, hfe⟩
    cases hread : read_request d e.id with
    | none =>
      rw [hread] at hfe
      cases hfe
    | some data =>
      rw [hread] at hfe
      obtain ⟨hne, hm⟩ := (searchEntry_eq_some_iff _ _ _ _ _).mp hfe
      refine ⟨e, hmem, data, hread, ?_, ?_⟩
      · have hh := (foundCats_ne_nil_iff (lowerStr q) sh data).mp hne
        unfold specHit containsCI
        rcases hh with h | h | h | ⟨hsh, h⟩
        · exact Or.inl h
        · exact Or.inr (Or.inl h)
        · exact Or.inr (Or.inr (Or.inl h))
        · refine Or.inr (Or.inr (Or.inr ⟨hsh, ?_⟩))
          rcases h with h | h
          · exact Or.inl ((headerScan_iff (lowerStr q) data.request.headers).mp h)
          · exact Or.inr ((headerScan_iff (lowerStr q) data.response.headers).mp h)
      · rw [foundCats_eq_specCats] at hm
        exact hm
  · rintro ⟨e, hmem, data, hread, hhit, hm⟩
    refine ⟨e, hmem, ?_⟩
    rw [hread]
    apply (searchEntry_eq_some_iff _ _ _ _ _).mpr
    constructor
    · apply (foundCats_ne_nil_iff (lowerStr q) sh data).mpr
      unfold specHit containsCI at hhit
      rcases hhit with h | h | h | ⟨hsh, h⟩
      · exact Or.inl h
      · exact Or.inr (Or.inl h)
      · exact Or.inr (Or.inr (Or.inl h))
      · refine Or.inr (Or.inr (Or.inr ⟨hsh, ?_⟩))
        rcases h with h | h
        · exact Or.inl ((headerScan_iff (lowerStr q) data.request.headers).mpr h)
        · exact Or.inr ((headerScan_iff (lowerStr q) data.response.headers).mpr h)
    · rw [foundCats_eq_specCats]
      exact hm

/-- Witness for C2: querying "foo" finds the record whose response body holds
"FOO", annotated with exactly "response body". -/
theorem search_requests_found_iff_witness :
    ("foo" ≠ "")
    ∧ (⟨"aaaabbbbccccdddd", "GET", "http://example.com/", ["response body"]⟩ : SMatch)
        ∈ tool_search_core "foo" false sampleDisk :=
  ⟨by decide,
   (search_requests_found_iff "foo" false sampleDisk (by decide)
      ⟨"aaaabbbbccccdddd", "GET", "http://example.com/", ["response body"]⟩).mpr
     ⟨sampleRecEntry, by decide, sampleRec, rfl, by decide, by decide⟩⟩
